import Mathlib

/-!
Shallow embedding of the tt-license-server order/licensing core
(src/server.js): license generation, order persistence, the payment
webhook and the admin approval handlers, together with proofs about them.

Modelling conventions:
* JavaScript values that flow through JSON bodies are modelled by `JVal`
  (null/undefined, strings, finite numbers, NaN); the boolean coercion
  used by `if (!x)` is `jsFalsy`.
* `parseFloat` is modelled on the numeric-prefix fragment actually
  exercised (optional sign, digits, optional fractional part); any other
  string parses to NaN, which is represented by `none`.
* The RSA signing primitive is an abstract function `sign : String → String`
  standing for `privateKey.sign payload 'base64'`; handlers are analysed
  under the assumption that the private key is configured.
* The current wall-clock instant is passed in explicitly: a civil `Date`
  (`year`, zero-based `month` as in JS `getMonth`, day of month) for the
  license expiry computation, and a `Nat` tick for the stored timestamps.
* The JSON order file is modelled as `Store := String → Option Order`;
  `db[orderId] = v` becomes `Function.update`, `delete db[orderId]`
  becomes updating to `none`.
* The outbound e-mail call is external; its success or failure enters the
  handlers as a boolean `emailOk`, and the fact that a handler invoked the
  generator / committed / called the notifier is recorded in an `Event`
  trace so that "without invoking X" claims are statable.
-/

namespace TTLicense

/-- JavaScript values occurring in request bodies and stored order fields:
`jNull` covers both `null` and `undefined` (an absent field), `jStr` a
string, `jNum` a finite number, `jNaN` the not-a-number value. -/
inductive JVal where
  | jNull : JVal
  | jStr : String → JVal
  | jNum : ℚ → JVal
  | jNaN : JVal
deriving DecidableEq

/-- JS truthiness test used by `if (!machineId || ...)` in /create-order:
`null`/`undefined`, the empty string, `0` and `NaN` are falsy. -/
def jsFalsy : JVal → Bool
  | .jNull => true
  | .jStr s => s = ""
  | .jNum q => q = 0
  | .jNaN => true

/-- Split a character list into its leading run of decimal digits and the
rest. -/
def takeDigits (l : List Char) : List Char × List Char :=
  (l.takeWhile Char.isDigit, l.dropWhile Char.isDigit)

/-- Numeric value of a digit run (most significant first). -/
def digitsToNat (l : List Char) : ℕ :=
  l.foldl (fun a c => 10 * a + (c.toNat - ('0').toNat)) 0

/-- `parseFloat` on the leading numeric prefix of a string: optional
spaces, optional sign, integer digits, optional `.` and fraction digits;
`none` is NaN. Exponents/`Infinity`/hex are outside the modelled fragment
(the handlers only ever receive plain decimal amounts). -/
def parseFloatChars (l : List Char) : Option ℚ :=
  let l₁ := l.dropWhile (· = ' ')
  let signAndRest : Bool × List Char :=
    match l₁ with
    | '-' :: r => (true, r)
    | '+' :: r => (false, r)
    | _ => (false, l₁)
  let ip := takeDigits signAndRest.2
  let fp : List Char × List Char :=
    match ip.2 with
    | '.' :: r => takeDigits r
    | _ => ([], ip.2)
  if ip.1 = [] ∧ fp.1 = [] then none
  else
    let mag : ℚ := (digitsToNat ip.1 : ℚ) + (digitsToNat fp.1 : ℚ) / (10 ^ fp.1.length : ℚ)
    some (if signAndRest.1 then -mag else mag)

/-- JS `parseFloat` applied to a JSON field value; `none` is NaN. -/
def parseFloat : JVal → Option ℚ
  | .jNull => none
  | .jNaN => none
  | .jNum q => some q
  | .jStr s => parseFloatChars s.data

/-- JS `<` on numbers: any comparison involving NaN is false. -/
def jsLt : Option ℚ → Option ℚ → Bool
  | some a, some b => a < b
  | _, _ => false

/-! ### Dates (JS `Date` civil fields) -/

/-- A civil date as exposed by JS `Date` accessors: `month` is zero-based
(January = 0) exactly as `getMonth` returns it. -/
structure Date where
  year : ℕ
  month : ℕ
  day : ℕ
deriving DecidableEq

/-- Gregorian leap-year test. -/
def isLeap (y : ℕ) : Bool := y % 4 = 0 ∧ (y % 100 ≠ 0 ∨ y % 400 = 0)

/-- Days in the zero-based month `m` of year `y`. -/
def daysInMonth (y : ℕ) (m : ℕ) : ℕ :=
  if m = 1 then (if isLeap y then 29 else 28)
  else if m = 3 ∨ m = 5 ∨ m = 8 ∨ m = 10 then 30
  else 31

/-- Normalise a (year, zero-based month with possible overflow, day)
triple the way the JS `Date` setters do: fold month overflow into the
year, then carry a day-of-month overflow into the following month. For
any day value a real `Date` can hold (≤ 31) a single carry is full
normalisation, since the overflow is at most 3 days. -/
def normDate (y m d : ℕ) : Date :=
  let y₁ := y + m / 12
  let m₁ := m % 12
  if d > daysInMonth y₁ m₁ then
    let m₂ := m₁ + 1
    ⟨y₁ + m₂ / 12, m₂ % 12, d - daysInMonth y₁ m₁⟩
  else ⟨y₁, m₁, d⟩

/-- `now.setMonth(now.getMonth() + 1)` from generateLicense. -/
def setMonthPlus1 (dt : Date) : Date := normDate dt.year (dt.month + 1) dt.day

/-- `now.setFullYear(now.getFullYear() + 1)` from generateLicense. -/
def setFullYearPlus1 (dt : Date) : Date := normDate (dt.year + 1) dt.month dt.day

/-- `String(n).padStart(2, '0')`. -/
def pad2 (n : ℕ) : String := if n < 10 then "0" ++ toString n else toString n

/-- The `${yyyy}${mm}${dd}` formatting in generateLicense: year unpadded,
one-based month and day padded to two digits. -/
def formatYYYYMMDD (dt : Date) : String :=
  toString dt.year ++ pad2 (dt.month + 1) ++ pad2 dt.day

/-! ### License generation (src/server.js `generateLicense`, lines 75–95) -/

/-- `generateLicense(machineId, type)` with the wall clock and the signing
primitive made explicit. Mirrors the source: take the first 8 characters
of `machineId` upper-cased, advance the clock by one month for `M` or one
year for `Y`, use the literal `FOREVER` for `P` and the (possibly
advanced) formatted date otherwise, sign `type-machineHash-expiry`, and
return `payload-signature`. Note the source performs no input validation:
any other `type` falls through with an unadvanced clock, and a short
`machineId` is used whole. -/
def generateLicense (sign : String → String) (machineId ty : String) (now : Date) : String :=
  let machineHash : String := ⟨(machineId.data.take 8).map Char.toUpper⟩
  let clock :=
    if ty = "M" then setMonthPlus1 now
    else if ty = "Y" then setFullYearPlus1 now
    else now
  let expiry := if ty = "P" then "FOREVER" else formatYYYYMMDD clock
  let payload := ty ++ "-" ++ machineHash ++ "-" ++ expiry
  payload ++ "-" ++ sign payload

/-! ### Orders and the store -/

/-- Order status; the source writes the strings `'PENDING'` and
`'COMPLETED'`. -/
inductive Status where
  | PENDING : Status
  | COMPLETED : Status
deriving DecidableEq

/-- A stored order record. `licenseKey = none` models the field being
absent from the JSON object; `updatedAt = none` likewise. -/
structure Order where
  machineId : String
  email : String
  type : String
  amount : JVal
  status : Status
  licenseKey : Option String
  createdAt : ℕ
  updatedAt : Option ℕ
deriving DecidableEq

/-- The orders.json database: a keyed mapping from order id to record. -/
def Store : Type := String → Option Order

/-- The store in a fresh deployment: `{}`. -/
def emptyStore : Store := fun _ => none

/-- `saveOrder(orderId, data)` (lines 39–53): unconditionally assigns
`db[orderId] = { ...data, status: 'PENDING', createdAt }`, silently
overwriting any record already present under that id. -/
def saveOrder (db : Store) (orderId : String) (machineId email ty : String)
    (amount : JVal) (t : ℕ) : Store :=
  Function.update db orderId (some
    { machineId := machineId, email := email, type := ty, amount := amount
      status := .PENDING, licenseKey := none, createdAt := t, updatedAt := none })

/-- `getOrder(orderId)` (lines 55–61). -/
def getOrder (db : Store) (orderId : String) : Option Order := db orderId

/-- `updateOrderStatus(orderId, status, extraData)` (lines 63–73): if the
record exists, merge `{ ...old, status, ...extraData, updatedAt }`. In the
source `extraData` is always either `{ licenseKey }` or absent, modelled
by `extra : Option String`; an absent `extraData` leaves the stored
`licenseKey` unchanged. Missing ids are left untouched. -/
def updateOrderStatus (db : Store) (orderId : String) (status : Status)
    (extra : Option String) (t : ℕ) : Store :=
  match db orderId with
  | none => db
  | some o =>
      Function.update db orderId (some
        { o with status := status
                 licenseKey := match extra with | some k => some k | none => o.licenseKey
                 updatedAt := some t })

/-! ### Handlers -/

/-- Response shape shared by the webhook and admin endpoints: HTTP status,
`success` flag, optional `message`, optional `emailSent` echo. -/
structure ApiResp where
  httpStatus : ℕ
  success : Bool
  message : Option String
  emailSent : Option Bool
deriving DecidableEq

/-- Observable side effects of a handler run, in execution order. -/
inductive Event where
  | generated : String → String → Event      -- generateLicense(machineId, type)
  | committed : String → String → Event      -- updateOrderStatus(orderId, COMPLETED, {licenseKey})
  | notified : String → String → String → Event  -- sendEmail(email, licenseKey, orderId)
deriving DecidableEq

/-- Result of running a handler: next store state, HTTP response, side
effect trace. -/
structure HandlerOut where
  db : Store
  resp : ApiResp
  events : List Event

/-- Response of `/create-order`: either the 400 `Missing required fields`
error or the success payload carrying the fresh order id (the
human-readable transfer instructions string is presentation only and is
not modelled beyond the id it embeds). -/
inductive CreateResp where
  | badRequest : String → CreateResp
  | ok : String → CreateResp
deriving DecidableEq

/-- `/create-order` (lines 167–183). Validation is only the JS truthiness
check on the four fields; the fresh id is `'TT' + rand` where `rand` is
the value of `Math.floor(1000 + Math.random() * 9000)`, passed in as the
oracle for the random draw. No collision check is made before
`saveOrder`. -/
def createOrder (db : Store) (machineId email ty : String) (amount : JVal)
    (rand : ℕ) (t : ℕ) : Store × CreateResp :=
  if machineId = "" ∨ email = "" ∨ ty = "" ∨ jsFalsy amount then
    (db, .badRequest "Missing required fields")
  else
    let orderId := "TT" ++ toString rand
    (saveOrder db orderId machineId email ty amount t, .ok orderId)

/-- The `content.match(/TT\d\{4\}/)` attempt at one position: succeeds when
the character list starts with `T`, `T` and four decimal digits,
returning that six-character match. -/
def matchTT4 : List Char → Option (List Char)
  | a :: b :: c :: d :: e :: f :: _ =>
      if a == 'T' && b == 'T' && c.isDigit && d.isDigit && e.isDigit && f.isDigit
      then some [a, b, c, d, e, f] else none
  | _ => none

/-- Leftmost-match scan of the regex engine: try each start position left
to right. -/
def scanTT4 : List Char → Option (List Char)
  | [] => none
  | c :: rest =>
      match matchTT4 (c :: rest) with
      | some m => some m
      | none => scanTT4 rest

/-- Order-id extraction from the webhook payment content (line 196):
first match of `TT` followed by four digits, or none. -/
def extractOrderId (content : String) : Option String :=
  (scanTT4 content.data).map String.mk

/-- `/webhook/sepay` (lines 186–233). `emailOk` is the outcome of the
external `sendEmail` call, `now`/`t` the wall clock. The amount guard is
exactly `parseFloat(amount) < parseFloat(order.amount)` — a NaN on either
side makes the comparison false and lets the request through. -/
def webhookSepay (sign : String → String) (now : Date) (t : ℕ) (emailOk : Bool)
    (db : Store) (content : String) (amount : JVal) : HandlerOut :=
  match extractOrderId content with
  | none => ⟨db, ⟨200, false, some "No order code found", none⟩, []⟩
  | some orderId =>
    match getOrder db orderId with
    | none => ⟨db, ⟨200, false, some "Order not found", none⟩, []⟩
    | some order =>
      if order.status = .COMPLETED then
        ⟨db, ⟨200, true, some "Order already completed", none⟩, []⟩
      else if jsLt (parseFloat amount) (parseFloat order.amount) then
        ⟨db, ⟨200, false, some "Insufficient amount", none⟩, []⟩
      else
        let licenseKey := generateLicense sign order.machineId order.type now
        ⟨updateOrderStatus db orderId .COMPLETED (some licenseKey) t,
         ⟨200, true, none, some emailOk⟩,
         [.generated order.machineId order.type,
          .committed orderId licenseKey,
          .notified order.email licenseKey orderId]⟩

/-- `/api/approve` (lines 263–285), after the admin password middleware
has passed. Identical fulfilment tail to the webhook but no amount check,
and an already-completed order is answered with `success: false`. -/
def apiApprove (sign : String → String) (now : Date) (t : ℕ) (emailOk : Bool)
    (db : Store) (orderId : String) : HandlerOut :=
  match getOrder db orderId with
  | none => ⟨db, ⟨404, false, some "Order not found", none⟩, []⟩
  | some order =>
    if order.status = .COMPLETED then
      ⟨db, ⟨200, false, some "Order already completed", none⟩, []⟩
    else
      let licenseKey := generateLicense sign order.machineId order.type now
      ⟨updateOrderStatus db orderId .COMPLETED (some licenseKey) t,
       ⟨200, true, none, some emailOk⟩,
       [.generated order.machineId order.type,
        .committed orderId licenseKey,
        .notified order.email licenseKey orderId]⟩

/-- `DELETE /api/orders/:id` (lines 288–302): remove the record if
present. -/
def deleteOrder (db : Store) (orderId : String) : Store × ApiResp :=
  match db orderId with
  | some _ => (Function.update db orderId none, ⟨200, true, none, none⟩)
  | none => (db, ⟨404, false, some "Not found", none⟩)

/-! ### Spec-side definitions

Independent restatements of the spec's wording, used to compare the code
against the specification (refinement claims). -/

/-- The three entitlement kinds the spec names: monthly, yearly,
perpetual. -/
inductive LType where
  | M : LType
  | Y : LType
  | P : LType
deriving DecidableEq

/-- The `type` string carried by an order for each entitlement kind. -/
def LType.code : LType → String
  | .M => "M"
  | .Y => "Y"
  | .P => "P"

/-- Spec wording: `machineHash` is the first 8 characters of `machineId`,
upper-cased. -/
def specMachineHash (machineId : String) : String :=
  ⟨(machineId.data.take 8).map Char.toUpper⟩

/-- Spec wording for the expiry field: for `M` the current date plus one
calendar month, for `Y` plus one calendar year, formatted `YYYYMMDD`; for
`P` the literal token `FOREVER`. Calendar addition is read as the JS
`Date` field increment: add one to the month (resp. year) field and
normalise an end-of-month overflow into the following days. -/
def specExpiry : LType → Date → String
  | .M, now => formatYYYYMMDD (setMonthPlus1 now)
  | .Y, now => formatYYYYMMDD (setFullYearPlus1 now)
  | .P, _ => "FOREVER"

/-- Spec wording for the whole license key:
`type-machineHash-expiry-signature` where the signature is over exactly
the payload `type-machineHash-expiry`. -/
def specLicense (sign : String → String) (machineId : String) (t : LType) (now : Date) : String :=
  let payload := t.code ++ "-" ++ specMachineHash machineId ++ "-" ++ specExpiry t now
  payload ++ "-" ++ sign payload

/-- Spec wording: a candidate order code is `TT` followed by exactly four
decimal digits. -/
def isTTCodeChars : List Char → Bool
  | [a, b, c, d, e, f] =>
      a == 'T' && b == 'T' && c.isDigit && d.isDigit && e.isDigit && f.isDigit
  | _ => false

/-- The candidate code `c` occurs in `l` starting at position `i`. -/
def codeAt (l : List Char) (i : ℕ) (c : List Char) : Prop :=
  isTTCodeChars c = true ∧ (l.drop i).take 6 = c

/-! ### Theorems -/

theorem matchTT4_some_iff (l c : List Char) :
    matchTT4 l = some c ↔ isTTCodeChars c = true ∧ l.take 6 = c := by
  rcases l with _ | ⟨a, _ | ⟨b, _ | ⟨x, _ | ⟨d, _ | ⟨e, _ | ⟨f, r⟩⟩⟩⟩⟩⟩
  all_goals try (
    constructor
    · intro h; simp [matchTT4] at h
    · rintro ⟨h1, h2⟩; subst h2; simp [isTTCodeChars] at h1)
  have htake : List.take 6 (a :: b :: x :: d :: e :: f :: r) = [a, b, x, d, e, f] := by simp
  by_cases hc : (a == 'T' && b == 'T' && x.isDigit && d.isDigit && e.isDigit && f.isDigit) = true
  · simp only [matchTT4, if_pos hc, Option.some.injEq, htake]
    constructor
    · rintro rfl
      exact ⟨hc, rfl⟩
    · rintro ⟨-, h2⟩
      exact h2
  · simp only [matchTT4, if_neg hc, htake]
    constructor
    · rintro h; exact Option.noConfusion h
    · rintro ⟨h1, rfl⟩
      exact absurd h1 hc

theorem matchTT4_none_iff (l : List Char) :
    matchTT4 l = none ↔ ∀ c, ¬ (isTTCodeChars c = true ∧ l.take 6 = c) := by
  cases h : matchTT4 l with
  | none =>
      simp only [true_iff]
      intro c hc
      have := (matchTT4_some_iff l c).mpr hc
      rw [h] at this; exact Option.noConfusion this
  | some m =>
      simp only [reduceCtorEq, false_iff, not_forall]
      exact ⟨m, not_not_intro ((matchTT4_some_iff l m).mp h)⟩

theorem scanTT4_none_iff (l : List Char) :
    scanTT4 l = none ↔ ∀ i, matchTT4 (l.drop i) = none := by
  induction l with
  | nil => simp [scanTT4, matchTT4]
  | cons a rest ih =>
      cases h : matchTT4 (a :: rest) with
      | some m =>
          simp only [scanTT4, h, reduceCtorEq, false_iff, not_forall]
          exact ⟨0, by simpa using h ▸ (by exact fun hh => Option.noConfusion hh)⟩
      | none =>
          simp only [scanTT4, h]
          constructor
          · intro hs i
            cases i with
            | zero => simpa using h
            | succ i => rw [List.drop_succ_cons]; exact ih.mp hs i
          · intro hall
            exact ih.mpr fun i => by
              have := hall (i + 1); rwa [List.drop_succ_cons] at this

theorem scanTT4_some_iff (l c : List Char) :
    scanTT4 l = some c ↔
      ∃ i, matchTT4 (l.drop i) = some c ∧ ∀ j, j < i → matchTT4 (l.drop j) = none := by
  induction l with
  | nil =>
      simp [scanTT4, matchTT4]
  | cons a rest ih =>
      cases h : matchTT4 (a :: rest) with
      | some m =>
          simp only [scanTT4, h, Option.some.injEq]
          constructor
          · rintro rfl
            exact ⟨0, by simpa using h, fun j hj => absurd hj (Nat.not_lt_zero j)⟩
          · rintro ⟨i, hi, hj⟩
            cases i with
            | zero => simp only [List.drop_zero] at hi; rw [h] at hi; exact (Option.some.injEq _ _).mp hi
            | succ i =>
                have h0 := hj 0 (Nat.succ_pos i)
                simp only [List.drop_zero] at h0
                rw [h] at h0; exact Option.noConfusion h0
      | none =>
          simp only [scanTT4, h]
          rw [ih]
          constructor
          · rintro ⟨i, hi, hj⟩
            refine ⟨i + 1, by rwa [List.drop_succ_cons], fun j hj' => ?_⟩
            cases j with
            | zero => simpa using h
            | succ j => rw [List.drop_succ_cons]; exact hj j (Nat.lt_of_succ_lt_succ hj')
          · rintro ⟨i, hi, hj⟩
            cases i with
            | zero => simp only [List.drop_zero] at hi; rw [h] at hi; exact Option.noConfusion hi
            | succ i =>
                refine ⟨i, by rwa [List.drop_succ_cons] at hi, fun j hj' => ?_⟩
                have := hj (j + 1) (Nat.succ_lt_succ hj')
                rwa [List.drop_succ_cons] at this

/-- C7: order-id extraction returns the first (leftmost) substring that
is `TT` followed by exactly four decimal digits, and returns none exactly
when no such substring occurs; with two candidate codes present the
earlier one wins. -/
theorem extractOrderId_first_code (content : String) :
    (extractOrderId content = none ↔ ∀ i c, ¬ codeAt content.data i c) ∧
    (∀ s : String, extractOrderId content = some s ↔
      ∃ i, codeAt content.data i s.data ∧
        ∀ j, j < i → ∀ c, ¬ codeAt content.data j c) := by
  constructor
  · rw [show (extractOrderId content = none ↔ scanTT4 content.data = none) by
      unfold extractOrderId; cases h : scanTT4 content.data <;> simp [h]]
    rw [scanTT4_none_iff]
    constructor
    · intro hall i c hc
      have := (matchTT4_none_iff (content.data.drop i)).mp (hall i) c
      exact this hc
    · intro hall i
      exact (matchTT4_none_iff (content.data.drop i)).mpr fun c hc => hall i c hc
  · intro s
    have hmap : extractOrderId content = some s ↔ scanTT4 content.data = some s.data := by
      unfold extractOrderId
      cases h : scanTT4 content.data with
      | none => simp [h]
      | some m =>
          obtain ⟨ls⟩ := s
          simp only [h, Option.map_some', Option.some.injEq]
          exact ⟨fun hh => by cases hh; rfl, fun hh => by rw [hh]⟩
    rw [hmap, scanTT4_some_iff]
    constructor
    · rintro ⟨i, hi, hj⟩
      refine ⟨i, (matchTT4_some_iff _ _).mp hi, fun j hj' c hc => ?_⟩
      exact (matchTT4_none_iff _).mp (hj j hj') c hc
    · rintro ⟨i, hi, hj⟩
      refine ⟨i, (matchTT4_some_iff _ _).mpr hi, fun j hj' => ?_⟩
      exact (matchTT4_none_iff _).mpr fun c hc => hj j hj' c hc

/-- C2: for every machineId, every entitlement type in \x7bM, Y, P\x7d and
every current time, the generated license key is
`type-machineHash-expiry-signature` with `machineHash` the first 8
characters of `machineId` upper-cased, `expiry` equal to `FOREVER` for
`P` and to the current date plus one calendar month (`M`) or one
calendar year (`Y`) formatted `YYYYMMDD`, and `signature` the signature
of exactly the payload `type-machineHash-expiry`. -/
theorem generateLicense_matches_spec (sign : String → String) (machineId : String)
    (t : LType) (now : Date) :
    generateLicense sign machineId t.code now = specLicense sign machineId t now := by
  cases t <;> rfl

/-- C6: the source performs no validation at all — called with the
unknown type `X` and the 2-character machineId `AB` it silently returns
the key `X-AB-20251011-SIG` (expiry today, the short id used whole)
instead of failing with a ValidationError as the spec requires. -/
theorem generateLicense_accepts_invalid_input :
    generateLicense (fun _ => "SIG") "AB" "X" ⟨2025, 9, 11⟩ = "X-AB-20251011-SIG" := by
  decide

/-! ### Concrete fixtures for counterexamples and witnesses -/

/-- A pending order under id TT1234. -/
def pendingOrder : Order :=
  { machineId := "MACHINE-0001", email := "buyer@example.com", type := "M"
    amount := .jNum 200000, status := .PENDING, licenseKey := none
    createdAt := 0, updatedAt := none }

/-- The same order after a completed fulfilment. -/
def completedOrder : Order :=
  { machineId := "MACHINE-0001", email := "buyer@example.com", type := "M"
    amount := .jNum 200000, status := .COMPLETED
    licenseKey := some "M-MACHINE--20251111-SIG", createdAt := 0, updatedAt := some 1 }

/-- Store holding only the pending TT1234 order. -/
def dbPending : Store := Function.update emptyStore "TT1234" (some pendingOrder)

/-- Store holding only the completed TT1234 order. -/
def dbCompleted : Store := Function.update emptyStore "TT1234" (some completedOrder)

/-! ### Fulfilment on an already-completed order (idempotence path) -/

/-- C1 counterexample: on the already-COMPLETED order TT1234 the admin
approval endpoint answers `success: false` — a fulfilment call on a
completed order does not report success as the claim states (and the
response carries no licenseKey field at all). -/
theorem approve_completed_reports_failure :
    (apiApprove (fun _ => "SIG") ⟨2025, 9, 11⟩ 2 true dbCompleted "TT1234").resp =
      ⟨200, false, some "Order already completed", none⟩ := by
  decide

/-- C1 (amended): on a COMPLETED order both fulfilment entry points
short-circuit — the store is untouched and neither the license
generator nor the notifier runs (empty event trace) — but the stored
licenseKey is not returned: the webhook answers success with the message
`Order already completed` while the admin approval answers failure with
the same message. -/
theorem completed_short_circuit (sign : String → String) (now : Date) (t : ℕ)
    (emailOk : Bool) (db : Store) (content : String) (amount : JVal)
    (orderId : String) (order : Order)
    (hx : extractOrderId content = some orderId)
    (ho : db orderId = some order)
    (hc : order.status = .COMPLETED) :
    webhookSepay sign now t emailOk db content amount =
      ⟨db, ⟨200, true, some "Order already completed", none⟩, []⟩ ∧
    apiApprove sign now t emailOk db orderId =
      ⟨db, ⟨200, false, some "Order already completed", none⟩, []⟩ := by
  constructor
  · simp [webhookSepay, hx, getOrder, ho, hc]
  · simp [apiApprove, getOrder, ho, hc]

/-- Witness for `completed_short_circuit` at the concrete completed
store. -/
theorem completed_short_circuit_witness :
    webhookSepay (fun _ => "SIG") ⟨2025, 9, 11⟩ 2 true dbCompleted "CK TT1234 X" (.jNum 200000) =
        ⟨dbCompleted, ⟨200, true, some "Order already completed", none⟩, []⟩ ∧
      apiApprove (fun _ => "SIG") ⟨2025, 9, 11⟩ 2 true dbCompleted "TT1234" =
        ⟨dbCompleted, ⟨200, false, some "Order already completed", none⟩, []⟩ :=
  completed_short_circuit (fun _ => "SIG") ⟨2025, 9, 11⟩ 2 true dbCompleted
    "CK TT1234 X" (.jNum 200000) "TT1234" completedOrder (by decide) (by decide) rfl

/-! ### Amount check -/

/-- C5: with numeric paid and required amounts, the webhook accepts
exactly when paid ≥ required — equality and any overpayment are
accepted — and an underpayment is answered `Insufficient amount` with
the store left unchanged and no side effects. -/
theorem webhook_amount_check (sign : String → String) (now : Date) (t : ℕ)
    (emailOk : Bool) (db : Store) (content : String) (amount : JVal)
    (orderId : String) (order : Order) (p r : ℚ)
    (hx : extractOrderId content = some orderId)
    (ho : db orderId = some order)
    (hs : order.status = .PENDING)
    (hp : parseFloat amount = some p)
    (hr : parseFloat order.amount = some r) :
    ((webhookSepay sign now t emailOk db content amount).resp.success = true ↔ r ≤ p) ∧
    (p < r → webhookSepay sign now t emailOk db content amount =
      ⟨db, ⟨200, false, some "Insufficient amount", none⟩, []⟩) := by
  by_cases hlt : p < r
  · have hjs : jsLt (parseFloat amount) (parseFloat order.amount) = true := by
      rw [hp, hr]; simpa [jsLt] using hlt
    have hout : webhookSepay sign now t emailOk db content amount =
        ⟨db, ⟨200, false, some "Insufficient amount", none⟩, []⟩ := by
      simp [webhookSepay, hx, getOrder, ho, hs, hjs]
    refine ⟨?_, fun _ => hout⟩
    rw [hout]
    simpa using not_le.mpr hlt
  · have hjs : jsLt (parseFloat amount) (parseFloat order.amount) = false := by
      rw [hp, hr]; simpa [jsLt] using hlt
    have hout : webhookSepay sign now t emailOk db content amount =
        ⟨updateOrderStatus db orderId .COMPLETED
            (some (generateLicense sign order.machineId order.type now)) t,
          ⟨200, true, none, some emailOk⟩,
          [.generated order.machineId order.type,
           .committed orderId (generateLicense sign order.machineId order.type now),
           .notified order.email (generateLicense sign order.machineId order.type now) orderId]⟩ := by
      simp [webhookSepay, hx, getOrder, ho, hs, hjs]
    refine ⟨?_, fun hlt' => absurd hlt' hlt⟩
    rw [hout]
    simpa using le_of_not_lt hlt

/-- Witness for `webhook_amount_check`: paying 199999 against a required
200000 on the pending TT1234 order. -/
theorem webhook_amount_check_witness :
    ((webhookSepay (fun _ => "SIG") ⟨2025, 9, 11⟩ 2 true dbPending "TT1234"
        (.jNum 199999)).resp.success = true ↔ (200000 : ℚ) ≤ 199999) ∧
    ((199999 : ℚ) < 200000 →
      webhookSepay (fun _ => "SIG") ⟨2025, 9, 11⟩ 2 true dbPending "TT1234" (.jNum 199999) =
        ⟨dbPending, ⟨200, false, some "Insufficient amount", none⟩, []⟩) :=
  webhook_amount_check (fun _ => "SIG") ⟨2025, 9, 11⟩ 2 true dbPending "TT1234"
    (.jNum 199999) "TT1234" pendingOrder 199999 200000
    (by decide) (by decide) rfl rfl rfl

/-! ### Fulfilment commit and the notifier -/

/-- C9: on a pending order passing the checks, both entry points commit
`COMPLETED` plus the generated key to the store and only afterwards call
the notifier (the event trace is generate, commit, notify); the
committed store does not depend on the notifier outcome `emailOk`, which
is surfaced to the caller as `emailSent` next to `success: true` —
a notifier failure yields the partial success `success: true,
emailSent: false` with the commit intact. -/
theorem notifier_failure_preserves_commit (sign : String → String) (now : Date) (t : ℕ)
    (db : Store) (content : String) (amount : JVal) (orderId : String) (order : Order)
    (hx : extractOrderId content = some orderId)
    (ho : db orderId = some order)
    (hs : order.status = .PENDING)
    (hamt : jsLt (parseFloat amount) (parseFloat order.amount) = false) :
    ∀ emailOk : Bool,
      webhookSepay sign now t emailOk db content amount =
        ⟨updateOrderStatus db orderId .COMPLETED
            (some (generateLicense sign order.machineId order.type now)) t,
          ⟨200, true, none, some emailOk⟩,
          [.generated order.machineId order.type,
           .committed orderId (generateLicense sign order.machineId order.type now),
           .notified order.email (generateLicense sign order.machineId order.type now) orderId]⟩ ∧
      apiApprove sign now t emailOk db orderId =
        ⟨updateOrderStatus db orderId .COMPLETED
            (some (generateLicense sign order.machineId order.type now)) t,
          ⟨200, true, none, some emailOk⟩,
          [.generated order.machineId order.type,
           .committed orderId (generateLicense sign order.machineId order.type now),
           .notified order.email (generateLicense sign order.machineId order.type now) orderId]⟩ ∧
      updateOrderStatus db orderId .COMPLETED
          (some (generateLicense sign order.machineId order.type now)) t orderId =
        some { order with
          status := .COMPLETED
          licenseKey := some (generateLicense sign order.machineId order.type now)
          updatedAt := some t } := by
  intro emailOk
  refine ⟨?_, ?_, ?_⟩
  · simp [webhookSepay, hx, getOrder, ho, hs, hamt]
  · simp [apiApprove, getOrder, ho, hs]
  · simp [updateOrderStatus, ho]

/-- Witness for `notifier_failure_preserves_commit` with a failing
notifier (`emailOk = false`) on the pending TT1234 order. -/
theorem notifier_failure_preserves_commit_witness :
    webhookSepay (fun _ => "SIG") ⟨2025, 9, 11⟩ 2 false dbPending "TT1234" (.jNum 200000) =
        ⟨updateOrderStatus dbPending "TT1234" .COMPLETED
            (some (generateLicense (fun _ => "SIG") pendingOrder.machineId pendingOrder.type
              ⟨2025, 9, 11⟩)) 2,
          ⟨200, true, none, some false⟩,
          [.generated pendingOrder.machineId pendingOrder.type,
           .committed "TT1234" (generateLicense (fun _ => "SIG") pendingOrder.machineId
             pendingOrder.type ⟨2025, 9, 11⟩),
           .notified pendingOrder.email (generateLicense (fun _ => "SIG") pendingOrder.machineId
             pendingOrder.type ⟨2025, 9, 11⟩) "TT1234"]⟩ ∧
      apiApprove (fun _ => "SIG") ⟨2025, 9, 11⟩ 2 false dbPending "TT1234" =
        ⟨updateOrderStatus dbPending "TT1234" .COMPLETED
            (some (generateLicense (fun _ => "SIG") pendingOrder.machineId pendingOrder.type
              ⟨2025, 9, 11⟩)) 2,
          ⟨200, true, none, some false⟩,
          [.generated pendingOrder.machineId pendingOrder.type,
           .committed "TT1234" (generateLicense (fun _ => "SIG") pendingOrder.machineId
             pendingOrder.type ⟨2025, 9, 11⟩),
           .notified pendingOrder.email (generateLicense (fun _ => "SIG") pendingOrder.machineId
             pendingOrder.type ⟨2025, 9, 11⟩) "TT1234"]⟩ ∧
      updateOrderStatus dbPending "TT1234" .COMPLETED
          (some (generateLicense (fun _ => "SIG") pendingOrder.machineId pendingOrder.type
            ⟨2025, 9, 11⟩)) 2 "TT1234" =
        some { pendingOrder with
          status := .COMPLETED
          licenseKey := some (generateLicense (fun _ => "SIG") pendingOrder.machineId
            pendingOrder.type ⟨2025, 9, 11⟩)
          updatedAt := some 2 } :=
  notifier_failure_preserves_commit (fun _ => "SIG") ⟨2025, 9, 11⟩ 2 dbPending "TT1234"
    (.jNum 200000) "TT1234" pendingOrder (by decide) (by decide) rfl (by decide) false

/-- C10: a paid amount whose `parseFloat` is NaN is never rejected by
the insufficiency guard — every `jsLt` comparison with NaN on the left
is false — so the webhook fulfils a PENDING order as if the amount were
sufficient. -/
theorem nan_amount_bypasses_check (sign : String → String) (now : Date) (t : ℕ)
    (emailOk : Bool) (db : Store) (content : String) (amount : JVal)
    (orderId : String) (order : Order)
    (hx : extractOrderId content = some orderId)
    (ho : db orderId = some order)
    (hs : order.status = .PENDING)
    (hp : parseFloat amount = none) :
    (∀ x, jsLt (parseFloat amount) x = false) ∧
    webhookSepay sign now t emailOk db content amount =
      ⟨updateOrderStatus db orderId .COMPLETED
          (some (generateLicense sign order.machineId order.type now)) t,
        ⟨200, true, none, some emailOk⟩,
        [.generated order.machineId order.type,
         .committed orderId (generateLicense sign order.machineId order.type now),
         .notified order.email (generateLicense sign order.machineId order.type now) orderId]⟩ := by
  have hjs : ∀ x, jsLt (parseFloat amount) x = false := by
    intro x; rw [hp]; cases x <;> rfl
  exact ⟨hjs, by simp [webhookSepay, hx, getOrder, ho, hs, hjs (parseFloat order.amount)]⟩

/-- Witness for `nan_amount_bypasses_check`: the non-numeric amount
string `abc` fulfils the pending TT1234 order. -/
theorem nan_amount_bypasses_check_witness :
    (∀ x, jsLt (parseFloat (.jStr "abc")) x = false) ∧
    webhookSepay (fun _ => "SIG") ⟨2025, 9, 11⟩ 2 true dbPending "TT1234" (.jStr "abc") =
      ⟨updateOrderStatus dbPending "TT1234" .COMPLETED
          (some (generateLicense (fun _ => "SIG") pendingOrder.machineId pendingOrder.type
            ⟨2025, 9, 11⟩)) 2,
        ⟨200, true, none, some true⟩,
        [.generated pendingOrder.machineId pendingOrder.type,
         .committed "TT1234" (generateLicense (fun _ => "SIG") pendingOrder.machineId
           pendingOrder.type ⟨2025, 9, 11⟩),
         .notified pendingOrder.email (generateLicense (fun _ => "SIG") pendingOrder.machineId
           pendingOrder.type ⟨2025, 9, 11⟩) "TT1234"]⟩ :=
  nan_amount_bypasses_check (fun _ => "SIG") ⟨2025, 9, 11⟩ 2 true dbPending "TT1234"
    (.jStr "abc") "TT1234" pendingOrder (by decide) (by decide) rfl (by decide)

/-! ### The licenseKey/status invariant over all reachable stores -/

/-- The spec invariant: a stored order carries a `licenseKey` exactly
when its status is COMPLETED. -/
def LicenseInv (db : Store) : Prop :=
  ∀ orderId o, db orderId = some o → (o.licenseKey.isSome = true ↔ o.status = .COMPLETED)

/-- One externally triggered mutation of the persisted store: an order
creation, a webhook delivery, an admin approval, or an admin deletion
(the read-only listing endpoint does not mutate the store). -/
inductive OpStep : Store → Store → Prop where
  | create (db : Store) (machineId email ty : String) (amount : JVal) (rand t : ℕ) :
      OpStep db (createOrder db machineId email ty amount rand t).1
  | webhook (db : Store) (sign : String → String) (now : Date) (t : ℕ) (emailOk : Bool)
      (content : String) (amount : JVal) :
      OpStep db (webhookSepay sign now t emailOk db content amount).db
  | approve (db : Store) (sign : String → String) (now : Date) (t : ℕ) (emailOk : Bool)
      (orderId : String) :
      OpStep db (apiApprove sign now t emailOk db orderId).db
  | del (db : Store) (orderId : String) :
      OpStep db (deleteOrder db orderId).1

/-- Stores reachable from a fresh deployment (`{}`) by the server's
operations. -/
def ReachableStore (db : Store) : Prop := Relation.ReflTransGen OpStep emptyStore db

theorem licenseInv_update (db : Store) (hdb : LicenseInv db) (orderId : String)
    (v : Option Order)
    (hv : ∀ o, v = some o → (o.licenseKey.isSome = true ↔ o.status = .COMPLETED)) :
    LicenseInv (Function.update db orderId v) := by
  intro id o h
  by_cases hid : id = orderId
  · subst hid
    rw [Function.update_same] at h
    exact hv o h
  · rw [Function.update_noteq hid] at h
    exact hdb id o h

theorem saveOrder_licenseInv (db : Store) (hdb : LicenseInv db) (orderId : String)
    (machineId email ty : String) (amount : JVal) (t : ℕ) :
    LicenseInv (saveOrder db orderId machineId email ty amount t) := by
  refine licenseInv_update db hdb orderId _ fun o h => ?_
  injection h with h
  subst h
  simp

theorem updateCompleted_licenseInv (db : Store) (hdb : LicenseInv db) (orderId : String)
    (k : String) (t : ℕ) :
    LicenseInv (updateOrderStatus db orderId .COMPLETED (some k) t) := by
  unfold updateOrderStatus
  cases h : db orderId with
  | none => exact hdb
  | some o =>
      refine licenseInv_update db hdb orderId _ fun o' h' => ?_
      injection h' with h'
      subst h'
      simp

theorem createOrder_licenseInv (db : Store) (hdb : LicenseInv db)
    (machineId email ty : String) (amount : JVal) (rand t : ℕ) :
    LicenseInv (createOrder db machineId email ty amount rand t).1 := by
  unfold createOrder
  by_cases hval : machineId = "" ∨ email = "" ∨ ty = "" ∨ jsFalsy amount = true
  · simpa [hval] using hdb
  · simpa [hval] using
      saveOrder_licenseInv db hdb ("TT" ++ toString rand) machineId email ty amount t

theorem webhookSepay_licenseInv (db : Store) (hdb : LicenseInv db)
    (sign : String → String) (now : Date) (t : ℕ) (emailOk : Bool)
    (content : String) (amount : JVal) :
    LicenseInv (webhookSepay sign now t emailOk db content amount).db := by
  cases hx : extractOrderId content with
  | none => simpa [webhookSepay, hx] using hdb
  | some orderId =>
      cases ho : getOrder db orderId with
      | none => simpa [webhookSepay, hx, ho] using hdb
      | some order =>
          by_cases hc : order.status = .COMPLETED
          · simpa [webhookSepay, hx, ho, hc] using hdb
          · by_cases hamt : jsLt (parseFloat amount) (parseFloat order.amount) = true
            · simpa [webhookSepay, hx, ho, hc, hamt] using hdb
            · simpa [webhookSepay, hx, ho, hc, hamt] using
                updateCompleted_licenseInv db hdb orderId
                  (generateLicense sign order.machineId order.type now) t

theorem apiApprove_licenseInv (db : Store) (hdb : LicenseInv db)
    (sign : String → String) (now : Date) (t : ℕ) (emailOk : Bool) (orderId : String) :
    LicenseInv (apiApprove sign now t emailOk db orderId).db := by
  cases ho : getOrder db orderId with
  | none => simpa [apiApprove, ho] using hdb
  | some order =>
      by_cases hc : order.status = .COMPLETED
      · simpa [apiApprove, ho, hc] using hdb
      · simpa [apiApprove, ho, hc] using
          updateCompleted_licenseInv db hdb orderId
            (generateLicense sign order.machineId order.type now) t

theorem deleteOrder_licenseInv (db : Store) (hdb : LicenseInv db) (orderId : String) :
    LicenseInv (deleteOrder db orderId).1 := by
  unfold deleteOrder
  cases h : db orderId with
  | none => exact hdb
  | some o =>
      exact licenseInv_update db hdb orderId none fun o' h' => Option.noConfusion h'

/-- C3: in every store reachable from a fresh deployment through the
server's operations (creation, webhook fulfilment, admin approval,
deletion), every stored order carries a `licenseKey` exactly when its
status is COMPLETED; each operation preserves the invariant. -/
theorem reachable_licenseKey_iff_completed (db : Store) (h : ReachableStore db) :
    LicenseInv db := by
  induction h with
  | refl => intro id o hid; exact Option.noConfusion hid
  | tail hab hbc ih =>
      cases hbc with
      | create machineId email ty amount rand t =>
          exact createOrder_licenseInv _ ih machineId email ty amount rand t
      | webhook sign now t emailOk content amount =>
          exact webhookSepay_licenseInv _ ih sign now t emailOk content amount
      | approve sign now t emailOk orderId =>
          exact apiApprove_licenseInv _ ih sign now t emailOk orderId
      | del orderId =>
          exact deleteOrder_licenseInv _ ih orderId

/-- Witness for `reachable_licenseKey_iff_completed`: the invariant at
the store reached by one creation followed by one webhook fulfilment. -/
theorem reachable_licenseKey_iff_completed_witness :
    LicenseInv ((webhookSepay (fun _ => "SIG") ⟨2025, 9, 11⟩ 2 true
      (createOrder emptyStore "MACHINE-0001" "buyer@example.com" "M" (.jNum 200000) 1234 0).1
      "TT1234" (.jNum 200000)).db) :=
  reachable_licenseKey_iff_completed _
    (Relation.ReflTransGen.tail
      (Relation.ReflTransGen.single
        (OpStep.create emptyStore "MACHINE-0001" "buyer@example.com" "M" (.jNum 200000) 1234 0))
      (OpStep.webhook _ (fun _ => "SIG") ⟨2025, 9, 11⟩ 2 true "TT1234" (.jNum 200000)))


/-! ### Order creation: collision overwrite and validation -/

/-- C4: order creation does not fail on an id collision — with TT1234
already PENDING in the store, a creation whose random draw is 1234
reports success and silently replaces the existing order with a fresh
PENDING record (there is no AlreadyExists rejection in the code). -/
theorem createOrder_overwrites_existing :
    dbPending "TT1234" = some pendingOrder ∧
    (createOrder dbPending "OTHER-MACHINE-99" "second@example.com" "Y"
        (.jNum 500000) 1234 7).2 = .ok "TT1234" ∧
    (createOrder dbPending "OTHER-MACHINE-99" "second@example.com" "Y"
        (.jNum 500000) 1234 7).1 "TT1234" =
      some { machineId := "OTHER-MACHINE-99", email := "second@example.com", type := "Y"
             amount := .jNum 500000, status := .PENDING, licenseKey := none
             createdAt := 7, updatedAt := none } :=
  ⟨by decide, by decide, by decide⟩

/-- C8 counterexample: a creation request whose type is `X` (not in
\x7bM, Y, P\x7d) and whose amount is the negative number −5 is accepted —
the handler reports success and stores a fresh pending order — instead
of failing with a ValidationError. -/
theorem createOrder_accepts_invalid_fields :
    (createOrder emptyStore "MACHINE-0001" "buyer@example.com" "X" (.jNum (-5)) 2345 0).2 =
      .ok "TT2345" ∧
    ((createOrder emptyStore "MACHINE-0001" "buyer@example.com" "X" (.jNum (-5)) 2345 0).1
        "TT2345").isSome = true :=
  ⟨by decide, by decide⟩

/-- C8 (amended): creation fails with the 400 `Missing required fields`
response exactly when one of the four fields is missing or JS-falsy
(null/undefined, empty string, the number 0, NaN) — so a zero amount is
rejected by the truthiness check, but a negative amount passes and the
type is not checked against \x7bM, Y, P\x7d; every request with four truthy
fields stores a fresh PENDING order under the drawn `TT` id. -/
theorem createOrder_validation_exact (db : Store) (machineId email ty : String)
    (amount : JVal) (rand t : ℕ) :
    ((createOrder db machineId email ty amount rand t).2 =
        .badRequest "Missing required fields" ↔
      (machineId = "" ∨ email = "" ∨ ty = "" ∨ jsFalsy amount = true)) ∧
    (¬ (machineId = "" ∨ email = "" ∨ ty = "" ∨ jsFalsy amount = true) →
      createOrder db machineId email ty amount rand t =
        (saveOrder db ("TT" ++ toString rand) machineId email ty amount t,
         .ok ("TT" ++ toString rand))) := by
  by_cases hval : machineId = "" ∨ email = "" ∨ ty = "" ∨ jsFalsy amount = true
  · exact ⟨by simp [createOrder, hval], fun h => absurd hval h⟩
  · exact ⟨by simp [createOrder, hval], fun _ => by simp [createOrder, hval]⟩

/-- Witness for `createOrder_validation_exact` on a fully valid request. -/
theorem createOrder_validation_exact_witness :
    (((createOrder emptyStore "MACHINE-0001" "buyer@example.com" "M"
          (.jNum 200000) 1500 0).2 = .badRequest "Missing required fields") ↔
      ("MACHINE-0001" = "" ∨ "buyer@example.com" = "" ∨ "M" = "" ∨
        jsFalsy (.jNum 200000) = true)) ∧
    (¬ ("MACHINE-0001" = "" ∨ "buyer@example.com" = "" ∨ "M" = "" ∨
        jsFalsy (.jNum 200000) = true) →
      createOrder emptyStore "MACHINE-0001" "buyer@example.com" "M" (.jNum 200000) 1500 0 =
        (saveOrder emptyStore ("TT" ++ toString 1500) "MACHINE-0001" "buyer@example.com" "M"
          (.jNum 200000) 0,
         .ok ("TT" ++ toString 1500))) :=
  createOrder_validation_exact emptyStore "MACHINE-0001" "buyer@example.com" "M"
    (.jNum 200000) 1500 0

end TTLicense
